import Mathlib

/-!
Verification of the grid command-agent interpreter found in
`src/agent-app/src/components/CommandAgent.tsx`.

The interpreter is a pure function from a raw command string and an
`AgentState` to a response string and a next state.  JavaScript string
primitives (`trim`, `toLowerCase`, `indexOf`, `slice`, `split`,
`Number.parseInt`, `String.replace` with a string pattern) are embedded
as executable functions on `List Char`.
-/

/-! ### JavaScript string primitives -/

def lowerChar (c : Char) : Char :=
  if 65 ≤ c.toNat ∧ c.toNat ≤ 90 then Char.ofNat (c.toNat + 32) else c

def upperChar (c : Char) : Char :=
  if 97 ≤ c.toNat ∧ c.toNat ≤ 122 then Char.ofNat (c.toNat - 32) else c

def lowerL (s : List Char) : List Char := s.map lowerChar

/-- JavaScript `String.prototype.trim`: remove leading and trailing whitespace. -/
def trimL (s : List Char) : List Char :=
  ((s.dropWhile Char.isWhitespace).reverse.dropWhile Char.isWhitespace).reverse

/-- JavaScript `String.prototype.includes`. -/
def containsL (s pat : List Char) : Bool :=
  match s with
  | [] => pat.isEmpty
  | c :: rest => pat.isPrefixOf (c :: rest) || containsL rest pat

/-- Accumulator worker for `jsIndexOfL`. -/
def idxAux (pat : List Char) : List Char → Nat → Int
  | [], i => if pat.isPrefixOf [] then (i : Int) else -1
  | c :: rest, i => if pat.isPrefixOf (c :: rest) then (i : Int) else idxAux pat rest (i + 1)

/-- JavaScript `String.prototype.indexOf`: first index of `pat` in `s`, `-1` if absent. -/
def jsIndexOfL (s pat : List Char) : Int := idxAux pat s 0

/-- JavaScript `String.prototype.slice` with one argument. -/
def jsSliceL (s : List Char) (i : Int) : List Char :=
  if i < 0 then s.drop (s.length - i.natAbs) else s.drop i.toNat

/-- JavaScript `String.prototype.replace` with a string pattern and empty
replacement: remove the first occurrence of `pat`. -/
def replaceFirstL (pat : List Char) : List Char → List Char
  | [] => []
  | c :: rest =>
    if pat.isPrefixOf (c :: rest) then (c :: rest).drop pat.length
    else c :: replaceFirstL pat rest

/-- JavaScript `String.prototype.split` on the one-character separator `","`. -/
def splitCommaL : List Char → List (List Char)
  | [] => [[]]
  | c :: rest =>
    if c = ',' then [] :: splitCommaL rest
    else
      match splitCommaL rest with
      | [] => [[c]]
      | h :: t => (c :: h) :: t

def digitsVal (ds : List Char) : Nat :=
  ds.foldl (fun acc c => acc * 10 + (c.toNat - 48)) 0

/-- JavaScript `Number.parseInt(s, 10)`, with `none` for `NaN`:
skip leading whitespace, read an optional sign and then a maximal run of
decimal digits; fail when that run is empty. -/
def jsParseIntL (s : List Char) : Option Int :=
  match s.dropWhile Char.isWhitespace with
  | '-' :: rest =>
    let ds := rest.takeWhile Char.isDigit
    if ds.isEmpty then none else some (-(digitsVal ds : Int))
  | '+' :: rest =>
    let ds := rest.takeWhile Char.isDigit
    if ds.isEmpty then none else some ((digitsVal ds : Int))
  | other =>
    let ds := other.takeWhile Char.isDigit
    if ds.isEmpty then none else some ((digitsVal ds : Int))

/-! ### Agent data model -/

inductive Heading where
  | north
  | east
  | south
  | west
deriving DecidableEq, BEq, Repr

inductive TurnDir where
  | left
  | right
deriving DecidableEq, Repr

structure AgentState where
  x : Int
  y : Int
  heading : Heading
  energy : Int
  inventory : List String
  notes : List String
deriving DecidableEq, Repr

structure CommandResult where
  response : String
  nextState : AgentState
deriving DecidableEq, Repr

structure Coords where
  x : Int
  y : Int
deriving DecidableEq, Repr

def GRID_SIZE : Int := 7

def headingOrder : List Heading := [.north, .east, .south, .west]

def nextHeading (current : Heading) (direction : TurnDir) : Heading :=
  let index : Int := headingOrder.indexOf current
  let offset : Int := match direction with | .left => -1 | .right => 1
  let nextIndex := (index + offset + headingOrder.length) % headingOrder.length
  headingOrder.getD nextIndex.toNat Heading.north

def moveForward (s : AgentState) : Coords :=
  match s.heading with
  | .north => ⟨s.x, min (GRID_SIZE - 1) (s.y + 1)⟩
  | .south => ⟨s.x, max 0 (s.y - 1)⟩
  | .east => ⟨min (GRID_SIZE - 1) (s.x + 1), s.y⟩
  | .west => ⟨max 0 (s.x - 1), s.y⟩

def baseState : AgentState :=
  { x := GRID_SIZE / 2
    y := GRID_SIZE / 2
    heading := Heading.north
    energy := 80
    inventory := []
    notes := ["Calibrated and ready."] }

def clampEnergy (value : Int) : Int := max 0 (min 100 value)

def headingStr : Heading → String
  | .north => "north"
  | .east => "east"
  | .south => "south"
  | .west => "west"

def headingUpper (h : Heading) : String :=
  String.mk ((headingStr h).data.map upperChar)

def formatState (state : AgentState) : String :=
  "Position (" ++ toString state.x ++ ", " ++ toString state.y ++ ") · Heading " ++
    headingUpper state.heading ++ " · Energy " ++ toString state.energy ++ "%"

/-! ### Keyword constants (lower-cased command tokens) -/

def helpC : List Char := ['h', 'e', 'l', 'p']

def commandsC : List Char := ['c', 'o', 'm', 'm', 'a', 'n', 'd', 's']

def manualC : List Char := ['m', 'a', 'n', 'u', 'a', 'l']

def statusC : List Char := ['s', 't', 'a', 't', 'u', 's']

def reportC : List Char := ['r', 'e', 'p', 'o', 'r', 't']

def stateC : List Char := ['s', 't', 'a', 't', 'e']

def notePat : List Char := ['n', 'o', 't', 'e']

def noteSp : List Char := ['n', 'o', 't', 'e', ' ']

def collectPat : List Char := ['c', 'o', 'l', 'l', 'e', 'c', 't']

def collectSp : List Char := ['c', 'o', 'l', 'l', 'e', 'c', 't', ' ']

def dropPat : List Char := ['d', 'r', 'o', 'p']

def dropSp : List Char := ['d', 'r', 'o', 'p', ' ']

def energyPat : List Char := ['e', 'n', 'e', 'r', 'g', 'y']

def energySp : List Char := ['e', 'n', 'e', 'r', 'g', 'y', ' ']

def pathPat : List Char := ['p', 'a', 't', 'h']

def pathSp : List Char := ['p', 'a', 't', 'h', ' ']

def resetC : List Char := ['r', 'e', 's', 'e', 't']

def rebootC : List Char := ['r', 'e', 'b', 'o', 'o', 't']

def initC : List Char := ['i', 'n', 'i', 't']

def restC : List Char := ['r', 'e', 's', 't']

def recoverC : List Char := ['r', 'e', 'c', 'o', 'v', 'e', 'r']

def rechargeC : List Char := ['r', 'e', 'c', 'h', 'a', 'r', 'g', 'e']

def scanC : List Char := ['s', 'c', 'a', 'n']

def scanAreaC : List Char := ['s', 'c', 'a', 'n', ' ', 'a', 'r', 'e', 'a']

def scanPerimeterC : List Char := ['s', 'c', 'a', 'n', ' ', 'p', 'e', 'r', 'i', 'm', 'e', 't', 'e', 'r']

def analyzeC : List Char := ['a', 'n', 'a', 'l', 'y', 'z', 'e']

def turnSp : List Char := ['t', 'u', 'r', 'n', ' ']

def leftPat : List Char := ['l', 'e', 'f', 't']

def rightPat : List Char := ['r', 'i', 'g', 'h', 't']

def aroundPat : List Char := ['a', 'r', 'o', 'u', 'n', 'd']

def movePat : List Char := ['m', 'o', 'v', 'e']

def forwardPat : List Char := ['f', 'o', 'r', 'w', 'a', 'r', 'd']

def northPat : List Char := ['n', 'o', 'r', 't', 'h']

def southPat : List Char := ['s', 'o', 'u', 't', 'h']

def eastPat : List Char := ['e', 'a', 's', 't']

def westPat : List Char := ['w', 'e', 's', 't']

/-! ### Response texts for the unreachable missing-argument branches -/

def noteEmptyMsg : String :=
  "Please provide note content after the command (e.g. “note secure perimeter”)."

def collectEmptyMsg : String :=
  "Specify what to collect (e.g. “collect sample”)."

def dropEmptyMsg : String :=
  "Specify what to drop (e.g. “drop sample”)."

def outOfBoundsMsg : String :=
  "Coordinates out of bounds. The grid is " ++ toString GRID_SIZE ++ "×" ++
    toString GRID_SIZE ++ ", indexed from (0,0)."

/-! ### The interpreter -/

/-- The `"note "` arm: extract the text after the first occurrence of
`"note"` in the lower-cased original input, trim it; empty text prompts,
otherwise the note is appended. -/
def noteBranch (input : String) (current : AgentState) : CommandResult :=
  let message := trimL (jsSliceL input.data (jsIndexOfL (lowerL input.data) notePat + 4))
  if message.isEmpty then
    { response := noteEmptyMsg, nextState := current }
  else
    { response := "Noted: " ++ String.mk message,
      nextState := { current with notes := current.notes ++ [String.mk message] } }

/-- The `"collect "` arm. -/
def collectBranch (input : String) (current : AgentState) : CommandResult :=
  let itemL := trimL (jsSliceL input.data (jsIndexOfL (lowerL input.data) collectPat + 7))
  if itemL.isEmpty then
    { response := collectEmptyMsg, nextState := current }
  else if String.mk itemL ∈ current.inventory then
    { response := "Item \"" ++ String.mk itemL ++ "\" is already secured.",
      nextState := current }
  else
    { response := "Collected \"" ++ String.mk itemL ++ "\" and stored in inventory.",
      nextState := { current with inventory := current.inventory ++ [String.mk itemL] } }

/-- The `"drop "` arm. -/
def dropBranch (input : String) (current : AgentState) : CommandResult :=
  let itemL := trimL (jsSliceL input.data (jsIndexOfL (lowerL input.data) dropPat + 4))
  if itemL.isEmpty then
    { response := dropEmptyMsg, nextState := current }
  else if String.mk itemL ∉ current.inventory then
    { response := "Inventory does not contain \"" ++ String.mk itemL ++ "\".",
      nextState := current }
  else
    { response := "Released \"" ++ String.mk itemL ++ "\" from inventory.",
      nextState := { current with
        inventory := current.inventory.filter (fun entry => entry != String.mk itemL) } }

/-- The `"energy "` arm. -/
def energyBranch (normalized : List Char) (current : AgentState) : CommandResult :=
  match jsParseIntL (trimL (replaceFirstL energyPat normalized)) with
  | none =>
    { response := "Provide an energy value between 0 and 100 (e.g. “energy 65”).",
      nextState := current }
  | some value =>
    { response := "Energy recalibrated to " ++ toString (clampEnergy value) ++ "%.",
      nextState := { current with energy := clampEnergy value } }

/-- The `"path "` arm. -/
def pathBranch (normalized : List Char) (current : AgentState) : CommandResult :=
  let coords := splitCommaL (trimL (replaceFirstL pathPat normalized))
  if coords.length ≠ 2 then
    { response := "Use “path x,y” to teleport the agent within the grid.",
      nextState := current }
  else
    match jsParseIntL (trimL (coords.getD 0 [])), jsParseIntL (trimL (coords.getD 1 [])) with
    | some targetX, some targetY =>
      if targetX < 0 ∨ targetY < 0 ∨ GRID_SIZE ≤ targetX ∨ GRID_SIZE ≤ targetY then
        { response := outOfBoundsMsg, nextState := current }
      else
        { response := "Navigated directly to (" ++ toString targetX ++ ", " ++
            toString targetY ++ ").",
          nextState := { current with
            x := targetX
            y := targetY
            energy := clampEnergy (current.energy - 10) } }
    | _, _ => { response := outOfBoundsMsg, nextState := current }

/-- The `"turn "` arm: sub-dispatch on substring containment, in the order
left, right, around. -/
def turnBranch (normalized : List Char) (current : AgentState) : CommandResult :=
  if containsL normalized leftPat then
    { response := "Turned left. Heading " ++
        headingUpper (nextHeading current.heading TurnDir.left) ++ ".",
      nextState := { current with
        heading := nextHeading current.heading TurnDir.left
        energy := clampEnergy (current.energy - 2) } }
  else if containsL normalized rightPat then
    { response := "Turned right. Heading " ++
        headingUpper (nextHeading current.heading TurnDir.right) ++ ".",
      nextState := { current with
        heading := nextHeading current.heading TurnDir.right
        energy := clampEnergy (current.energy - 2) } }
  else if containsL normalized aroundPat then
    let halfway := nextHeading current.heading TurnDir.right
    { response := "Executed 180° pivot. Heading " ++
        headingUpper (nextHeading halfway TurnDir.right) ++ ".",
      nextState := { current with
        heading := nextHeading (nextHeading current.heading TurnDir.right) TurnDir.right
        energy := clampEnergy (current.energy - 3) } }
  else
    { response := "Specify turn direction: left, right, or around.", nextState := current }

/-- The move/forward arm: sub-dispatch on substring containment, in the order
north, south, east, west, then plain forward in the current heading. -/
def moveBranch (normalized : List Char) (current : AgentState) : CommandResult :=
  if containsL normalized northPat then
    let p := moveForward { current with heading := Heading.north }
    { response := "Advanced north to (" ++ toString p.x ++ ", " ++ toString p.y ++ ").",
      nextState := { current with
        x := p.x
        y := p.y
        heading := Heading.north
        energy := clampEnergy (current.energy - 6) } }
  else if containsL normalized southPat then
    let p := moveForward { current with heading := Heading.south }
    { response := "Advanced south to (" ++ toString p.x ++ ", " ++ toString p.y ++ ").",
      nextState := { current with
        x := p.x
        y := p.y
        heading := Heading.south
        energy := clampEnergy (current.energy - 6) } }
  else if containsL normalized eastPat then
    let p := moveForward { current with heading := Heading.east }
    { response := "Advanced east to (" ++ toString p.x ++ ", " ++ toString p.y ++ ").",
      nextState := { current with
        x := p.x
        y := p.y
        heading := Heading.east
        energy := clampEnergy (current.energy - 6) } }
  else if containsL normalized westPat then
    let p := moveForward { current with heading := Heading.west }
    { response := "Advanced west to (" ++ toString p.x ++ ", " ++ toString p.y ++ ").",
      nextState := { current with
        x := p.x
        y := p.y
        heading := Heading.west
        energy := clampEnergy (current.energy - 6) } }
  else
    let nextCoords := moveForward current
    if nextCoords.x = current.x ∧ nextCoords.y = current.y then
      { response := "Boundary reached. Unable to move further forward.", nextState := current }
    else
      { response := "Advanced forward to (" ++ toString nextCoords.x ++ ", " ++
          toString nextCoords.y ++ ").",
        nextState := { current with
          x := nextCoords.x
          y := nextCoords.y
          energy := clampEnergy (current.energy - 6) } }

/-- Body of `interpretCommand`, with the normalized (trimmed, lower-cased)
input passed explicitly.  Mirrors the dispatch chain of the source in order. -/
def interpretCore (input : String) (normalized : List Char) (current : AgentState) :
    CommandResult :=
  if normalized.isEmpty then
    { response := "Awaiting directives. Try something like “move north” or “scan perimeter”.",
      nextState := current }
  else if normalized ∈ [helpC, commandsC, manualC] then
    { response := "Available directives: move <north|south|east|west|forward>, turn <left|right|around>, scan, rest, status, reset, collect <item>, drop <item>, note <text>, energy <value>, path <x,y>. All commands are case-insensitive.",
      nextState := current }
  else if normalized ∈ [statusC, reportC, stateC] then
    { response := formatState current, nextState := current }
  else if noteSp.isPrefixOf normalized then
    noteBranch input current
  else if collectSp.isPrefixOf normalized then
    collectBranch input current
  else if dropSp.isPrefixOf normalized then
    dropBranch input current
  else if energySp.isPrefixOf normalized then
    energyBranch normalized current
  else if pathSp.isPrefixOf normalized then
    pathBranch normalized current
  else if normalized ∈ [resetC, rebootC, initC] then
    { response := "Agent reset to baseline configuration.", nextState := baseState }
  else if normalized ∈ [restC, recoverC, rechargeC] then
    let restored := clampEnergy (current.energy + 15)
    { response := "Resting... Energy now at " ++ toString restored ++ "%.",
      nextState := { current with energy := restored } }
  else if normalized ∈ [scanC, scanAreaC, scanPerimeterC, analyzeC] then
    { response := "Scan complete. No threats detected. Notes: " ++
        (if current.notes.length ≠ 0 then current.notes.getLastD "" else "No mission notes."),
      nextState := { current with energy := clampEnergy (current.energy - 5) } }
  else if turnSp.isPrefixOf normalized then
    turnBranch normalized current
  else if movePat.isPrefixOf normalized || containsL normalized forwardPat then
    moveBranch normalized current
  else
    { response := "Command not recognized. Request “help” to review supported directives or provide a more specific instruction.",
      nextState := current }

/-- Normalization applied by the source before dispatch: `input.trim().toLowerCase()`. -/
def normalizeInput (input : String) : List Char := lowerL (trimL input.data)

def interpretCommand (input : String) (current : AgentState) : CommandResult :=
  interpretCore input (normalizeInput input) current

/-- Disjunction of all dispatch guards that precede the move/forward rule,
in source order. -/
def dispatchedBeforeMove (normalized : List Char) : Bool :=
  normalized.isEmpty ||
  decide (normalized ∈ [helpC, commandsC, manualC]) ||
  decide (normalized ∈ [statusC, reportC, stateC]) ||
  noteSp.isPrefixOf normalized ||
  collectSp.isPrefixOf normalized ||
  dropSp.isPrefixOf normalized ||
  energySp.isPrefixOf normalized ||
  pathSp.isPrefixOf normalized ||
  decide (normalized ∈ [resetC, rebootC, initC]) ||
  decide (normalized ∈ [restC, recoverC, rechargeC]) ||
  decide (normalized ∈ [scanC, scanAreaC, scanPerimeterC, analyzeC]) ||
  turnSp.isPrefixOf normalized

example : (interpretCommand "move north" baseState).nextState.energy = 74 := by decide

example : (interpretCommand "move north" baseState).response = "Advanced north to (3, 4)." := by
  decide

example : (interpretCommand "path 0,0" baseState).nextState.energy = 70 := by decide

example : (interpretCommand "path 9,9" baseState).nextState = baseState := by decide

example : (interpretCommand "  STATUS  " baseState).response =
    "Position (3, 3) · Heading NORTH · Energy 80%" := by decide

/-! ### Helper lemmas -/

theorem clampEnergy_bounds (v : Int) : 0 ≤ clampEnergy v ∧ clampEnergy v ≤ 100 := by
  unfold clampEnergy
  refine ⟨le_max_left 0 _, max_le (by norm_num) (min_le_left 100 v)⟩

theorem moveForward_bounds (s : AgentState) (hx0 : 0 ≤ s.x) (hx6 : s.x ≤ GRID_SIZE - 1)
    (hy0 : 0 ≤ s.y) (hy6 : s.y ≤ GRID_SIZE - 1) :
    0 ≤ (moveForward s).x ∧ (moveForward s).x ≤ GRID_SIZE - 1 ∧
      0 ≤ (moveForward s).y ∧ (moveForward s).y ≤ GRID_SIZE - 1 := by
  unfold moveForward GRID_SIZE at *
  cases s.heading <;> simp_all <;> omega

/-- Case analysis over the dispatch chain of `interpretCore`. -/
theorem interpretCore_cases (input : String) (normalized : List Char) (current : AgentState)
    (P : CommandResult → Prop)
    (hAwait : P { response := "Awaiting directives. Try something like “move north” or “scan perimeter”.", nextState := current })
    (hHelp : P { response := "Available directives: move <north|south|east|west|forward>, turn <left|right|around>, scan, rest, status, reset, collect <item>, drop <item>, note <text>, energy <value>, path <x,y>. All commands are case-insensitive.", nextState := current })
    (hStatus : P { response := formatState current, nextState := current })
    (hNote : noteSp.isPrefixOf normalized = true → P (noteBranch input current))
    (hCollect : collectSp.isPrefixOf normalized = true → P (collectBranch input current))
    (hDrop : dropSp.isPrefixOf normalized = true → P (dropBranch input current))
    (hEnergy : P (energyBranch normalized current))
    (hPath : P (pathBranch normalized current))
    (hReset : P { response := "Agent reset to baseline configuration.", nextState := baseState })
    (hRest : P { response := "Resting... Energy now at " ++ toString (clampEnergy (current.energy + 15)) ++ "%.", nextState := { current with energy := clampEnergy (current.energy + 15) } })
    (hScan : P { response := "Scan complete. No threats detected. Notes: " ++ (if current.notes.length ≠ 0 then current.notes.getLastD "" else "No mission notes."), nextState := { current with energy := clampEnergy (current.energy - 5) } })
    (hTurn : P (turnBranch normalized current))
    (hMove : P (moveBranch normalized current))
    (hFall : P { response := "Command not recognized. Request “help” to review supported directives or provide a more specific instruction.", nextState := current }) :
    P (interpretCore input normalized current) := by
  unfold interpretCore
  by_cases g1 : normalized.isEmpty = true
  · rw [if_pos g1]; exact hAwait
  rw [if_neg g1]
  by_cases g2 : normalized ∈ [helpC, commandsC, manualC]
  · rw [if_pos g2]; exact hHelp
  rw [if_neg g2]
  by_cases g3 : normalized ∈ [statusC, reportC, stateC]
  · rw [if_pos g3]; exact hStatus
  rw [if_neg g3]
  by_cases g4 : noteSp.isPrefixOf normalized = true
  · rw [if_pos g4]; exact hNote g4
  rw [if_neg g4]
  by_cases g5 : collectSp.isPrefixOf normalized = true
  · rw [if_pos g5]; exact hCollect g5
  rw [if_neg g5]
  by_cases g6 : dropSp.isPrefixOf normalized = true
  · rw [if_pos g6]; exact hDrop g6
  rw [if_neg g6]
  by_cases g7 : energySp.isPrefixOf normalized = true
  · rw [if_pos g7]; exact hEnergy
  rw [if_neg g7]
  by_cases g8 : pathSp.isPrefixOf normalized = true
  · rw [if_pos g8]; exact hPath
  rw [if_neg g8]
  by_cases g9 : normalized ∈ [resetC, rebootC, initC]
  · rw [if_pos g9]; exact hReset
  rw [if_neg g9]
  by_cases g10 : normalized ∈ [restC, recoverC, rechargeC]
  · rw [if_pos g10]; exact hRest
  rw [if_neg g10]
  by_cases g11 : normalized ∈ [scanC, scanAreaC, scanPerimeterC, analyzeC]
  · rw [if_pos g11]; exact hScan
  rw [if_neg g11]
  by_cases g12 : turnSp.isPrefixOf normalized = true
  · rw [if_pos g12]; exact hTurn
  rw [if_neg g12]
  by_cases g13 : (movePat.isPrefixOf normalized || containsL normalized forwardPat) = true
  · rw [if_pos g13]; exact hMove
  rw [if_neg g13]
  exact hFall

theorem noteBranch_keeps (input : String) (current : AgentState) :
    (noteBranch input current).nextState.x = current.x ∧
      (noteBranch input current).nextState.y = current.y ∧
      (noteBranch input current).nextState.energy = current.energy := by
  unfold noteBranch
  dsimp only
  split <;> exact ⟨rfl, rfl, rfl⟩

theorem collectBranch_keeps (input : String) (current : AgentState) :
    (collectBranch input current).nextState.x = current.x ∧
      (collectBranch input current).nextState.y = current.y ∧
      (collectBranch input current).nextState.energy = current.energy := by
  unfold collectBranch
  dsimp only
  split
  · exact ⟨rfl, rfl, rfl⟩
  split <;> exact ⟨rfl, rfl, rfl⟩

theorem dropBranch_keeps (input : String) (current : AgentState) :
    (dropBranch input current).nextState.x = current.x ∧
      (dropBranch input current).nextState.y = current.y ∧
      (dropBranch input current).nextState.energy = current.energy := by
  unfold dropBranch
  dsimp only
  split
  · exact ⟨rfl, rfl, rfl⟩
  split <;> exact ⟨rfl, rfl, rfl⟩

theorem energyBranch_inv (normalized : List Char) (current : AgentState) :
    (energyBranch normalized current).nextState.x = current.x ∧
      (energyBranch normalized current).nextState.y = current.y ∧
      ((energyBranch normalized current).nextState.energy = current.energy ∨
        ∃ v, (energyBranch normalized current).nextState.energy = clampEnergy v) := by
  unfold energyBranch
  split
  · exact ⟨rfl, rfl, Or.inl rfl⟩
  · exact ⟨rfl, rfl, Or.inr ⟨_, rfl⟩⟩

theorem pathBranch_inv (normalized : List Char) (current : AgentState) :
    ((pathBranch normalized current).nextState.x = current.x ∧
      (pathBranch normalized current).nextState.y = current.y ∧
      (pathBranch normalized current).nextState.energy = current.energy) ∨
    (0 ≤ (pathBranch normalized current).nextState.x ∧
      (pathBranch normalized current).nextState.x ≤ GRID_SIZE - 1 ∧
      0 ≤ (pathBranch normalized current).nextState.y ∧
      (pathBranch normalized current).nextState.y ≤ GRID_SIZE - 1 ∧
      (pathBranch normalized current).nextState.energy =
        clampEnergy (current.energy - 10)) := by
  unfold pathBranch
  dsimp only
  split
  · exact Or.inl ⟨rfl, rfl, rfl⟩
  split
  · next targetX targetY _ =>
    split
    · exact Or.inl ⟨rfl, rfl, rfl⟩
    · next hok =>
      push_neg at hok
      unfold GRID_SIZE at hok ⊢
      refine Or.inr ⟨?_, ?_, ?_, ?_, rfl⟩ <;> dsimp only <;> omega
  · exact Or.inl ⟨rfl, rfl, rfl⟩

theorem turnBranch_inv (normalized : List Char) (current : AgentState) :
    (turnBranch normalized current).nextState.x = current.x ∧
      (turnBranch normalized current).nextState.y = current.y ∧
      ((turnBranch normalized current).nextState.energy = current.energy ∨
        ∃ v, (turnBranch normalized current).nextState.energy = clampEnergy v) := by
  unfold turnBranch
  split
  · exact ⟨rfl, rfl, Or.inr ⟨_, rfl⟩⟩
  split
  · exact ⟨rfl, rfl, Or.inr ⟨_, rfl⟩⟩
  split
  · exact ⟨rfl, rfl, Or.inr ⟨_, rfl⟩⟩
  · exact ⟨rfl, rfl, Or.inl rfl⟩

theorem moveBranch_inv (normalized : List Char) (current : AgentState) :
    ((moveBranch normalized current).nextState.energy = current.energy ∨
      (moveBranch normalized current).nextState.energy = clampEnergy (current.energy - 6)) ∧
    (((moveBranch normalized current).nextState.x = current.x ∧
        (moveBranch normalized current).nextState.y = current.y) ∨
      (∃ s : AgentState, s.x = current.x ∧ s.y = current.y ∧
        (moveBranch normalized current).nextState.x = (moveForward s).x ∧
        (moveBranch normalized current).nextState.y = (moveForward s).y)) := by
  unfold moveBranch
  dsimp only
  split
  · exact ⟨Or.inr rfl,
      Or.inr ⟨{ current with heading := Heading.north }, rfl, rfl, rfl, rfl⟩⟩
  split
  · exact ⟨Or.inr rfl,
      Or.inr ⟨{ current with heading := Heading.south }, rfl, rfl, rfl, rfl⟩⟩
  split
  · exact ⟨Or.inr rfl,
      Or.inr ⟨{ current with heading := Heading.east }, rfl, rfl, rfl, rfl⟩⟩
  split
  · exact ⟨Or.inr rfl,
      Or.inr ⟨{ current with heading := Heading.west }, rfl, rfl, rfl, rfl⟩⟩
  split
  · exact ⟨Or.inl rfl, Or.inl ⟨rfl, rfl⟩⟩
  · exact ⟨Or.inr rfl, Or.inr ⟨current, rfl, rfl, rfl, rfl⟩⟩

/-- C1: for every input string and every state with energy in `[0, 100]`, the
state returned by `interpretCommand` has energy in `[0, 100]`; every
energy-affecting branch passes its result through `clampEnergy`. -/
theorem energy_invariant (input : String) (current : AgentState)
    (h0 : 0 ≤ current.energy) (h1 : current.energy ≤ 100) :
    0 ≤ (interpretCommand input current).nextState.energy ∧
      (interpretCommand input current).nextState.energy ≤ 100 := by
  unfold interpretCommand
  refine interpretCore_cases input (normalizeInput input) current
    (fun r => 0 ≤ r.nextState.energy ∧ r.nextState.energy ≤ 100)
    ⟨h0, h1⟩ ⟨h0, h1⟩ ⟨h0, h1⟩ ?_ ?_ ?_ ?_ ?_ ⟨by decide, by decide⟩
    (clampEnergy_bounds _) (clampEnergy_bounds _) ?_ ?_ ⟨h0, h1⟩
  · intro _; rw [(noteBranch_keeps input current).2.2]; exact ⟨h0, h1⟩
  · intro _; rw [(collectBranch_keeps input current).2.2]; exact ⟨h0, h1⟩
  · intro _; rw [(dropBranch_keeps input current).2.2]; exact ⟨h0, h1⟩
  · dsimp only
    rcases (energyBranch_inv (normalizeInput input) current).2.2 with he | ⟨v, he⟩
    · rw [he]; exact ⟨h0, h1⟩
    · rw [he]; exact clampEnergy_bounds v
  · dsimp only
    rcases pathBranch_inv (normalizeInput input) current with ⟨_, _, he⟩ | ⟨_, _, _, _, he⟩
    · rw [he]; exact ⟨h0, h1⟩
    · rw [he]; exact clampEnergy_bounds _
  · dsimp only
    rcases (turnBranch_inv (normalizeInput input) current).2.2 with he | ⟨v, he⟩
    · rw [he]; exact ⟨h0, h1⟩
    · rw [he]; exact clampEnergy_bounds v
  · dsimp only
    rcases (moveBranch_inv (normalizeInput input) current).1 with he | he
    · rw [he]; exact ⟨h0, h1⟩
    · rw [he]; exact clampEnergy_bounds _

theorem energy_invariant_witness :
    0 ≤ (interpretCommand "rest" baseState).nextState.energy ∧
      (interpretCommand "rest" baseState).nextState.energy ≤ 100 :=
  energy_invariant "rest" baseState (by decide) (by decide)

/-- C2: for every input string and every state with coordinates inside the
7×7 grid, the state returned by `interpretCommand` stays inside the grid. -/
theorem grid_invariant (input : String) (current : AgentState)
    (hx0 : 0 ≤ current.x) (hx1 : current.x ≤ GRID_SIZE - 1)
    (hy0 : 0 ≤ current.y) (hy1 : current.y ≤ GRID_SIZE - 1) :
    0 ≤ (interpretCommand input current).nextState.x ∧
      (interpretCommand input current).nextState.x ≤ GRID_SIZE - 1 ∧
      0 ≤ (interpretCommand input current).nextState.y ∧
      (interpretCommand input current).nextState.y ≤ GRID_SIZE - 1 := by
  unfold interpretCommand
  refine interpretCore_cases input (normalizeInput input) current
    (fun r => 0 ≤ r.nextState.x ∧ r.nextState.x ≤ GRID_SIZE - 1 ∧
      0 ≤ r.nextState.y ∧ r.nextState.y ≤ GRID_SIZE - 1)
    ⟨hx0, hx1, hy0, hy1⟩ ⟨hx0, hx1, hy0, hy1⟩ ⟨hx0, hx1, hy0, hy1⟩ ?_ ?_ ?_ ?_ ?_
    ⟨by decide, by decide, by decide, by decide⟩
    ⟨hx0, hx1, hy0, hy1⟩ ⟨hx0, hx1, hy0, hy1⟩ ?_ ?_ ⟨hx0, hx1, hy0, hy1⟩
  · intro _
    obtain ⟨ex, ey, _⟩ := noteBranch_keeps input current
    rw [ex, ey]; exact ⟨hx0, hx1, hy0, hy1⟩
  · intro _
    obtain ⟨ex, ey, _⟩ := collectBranch_keeps input current
    rw [ex, ey]; exact ⟨hx0, hx1, hy0, hy1⟩
  · intro _
    obtain ⟨ex, ey, _⟩ := dropBranch_keeps input current
    rw [ex, ey]; exact ⟨hx0, hx1, hy0, hy1⟩
  · dsimp only
    obtain ⟨ex, ey, _⟩ := energyBranch_inv (normalizeInput input) current
    rw [ex, ey]; exact ⟨hx0, hx1, hy0, hy1⟩
  · dsimp only
    rcases pathBranch_inv (normalizeInput input) current with ⟨ex, ey, _⟩ | ⟨b1, b2, b3, b4, _⟩
    · rw [ex, ey]; exact ⟨hx0, hx1, hy0, hy1⟩
    · exact ⟨b1, b2, b3, b4⟩
  · dsimp only
    obtain ⟨ex, ey, _⟩ := turnBranch_inv (normalizeInput input) current
    rw [ex, ey]; exact ⟨hx0, hx1, hy0, hy1⟩
  · dsimp only
    rcases (moveBranch_inv (normalizeInput input) current).2 with ⟨ex, ey⟩ | ⟨s, sx, sy, ex, ey⟩
    · rw [ex, ey]; exact ⟨hx0, hx1, hy0, hy1⟩
    · rw [ex, ey]
      have hb := moveForward_bounds s (by rw [sx]; exact hx0) (by rw [sx]; exact hx1)
        (by rw [sy]; exact hy0) (by rw [sy]; exact hy1)
      exact hb

theorem grid_invariant_witness :
    0 ≤ (interpretCommand "move west" baseState).nextState.x ∧
      (interpretCommand "move west" baseState).nextState.x ≤ GRID_SIZE - 1 ∧
      0 ≤ (interpretCommand "move west" baseState).nextState.y ∧
      (interpretCommand "move west" baseState).nextState.y ≤ GRID_SIZE - 1 :=
  grid_invariant "move west" baseState (by decide) (by decide) (by decide) (by decide)

/-! ### Dispatch reachability helpers -/

theorem isPrefixOf_self (l : List Char) : l.isPrefixOf l = true := by
  induction l with
  | nil => rfl
  | cons a t ih => rw [List.isPrefixOf_cons₂, ih, beq_self_eq_true]; rfl

theorem guard_ne_true (b : Bool) (h : b = false) : ¬ b = true := by simp [h]

theorem notMem3 (nz A B C : List Char) (hA : A.isPrefixOf nz = false)
    (hB : B.isPrefixOf nz = false) (hC : C.isPrefixOf nz = false) :
    nz ∉ ([A, B, C] : List (List Char)) := by
  intro hm
  simp only [List.mem_cons, List.not_mem_nil, or_false] at hm
  rcases hm with rfl | rfl | rfl
  · rw [isPrefixOf_self] at hA; simp at hA
  · rw [isPrefixOf_self] at hB; simp at hB
  · rw [isPrefixOf_self] at hC; simp at hC

theorem notMem4 (nz A B C D : List Char) (hA : A.isPrefixOf nz = false)
    (hB : B.isPrefixOf nz = false) (hC : C.isPrefixOf nz = false)
    (hD : D.isPrefixOf nz = false) :
    nz ∉ ([A, B, C, D] : List (List Char)) := by
  intro hm
  simp only [List.mem_cons, List.not_mem_nil, or_false] at hm
  rcases hm with rfl | rfl | rfl | rfl
  · rw [isPrefixOf_self] at hA; simp at hA
  · rw [isPrefixOf_self] at hB; simp at hB
  · rw [isPrefixOf_self] at hC; simp at hC
  · rw [isPrefixOf_self] at hD; simp at hD

theorem isPrefixOf_append (p t : List Char) : p.isPrefixOf (p ++ t) = true := by
  rw [ List.isPrefixOf_iff_prefix]
  exact List.prefix_append p t

theorem interpretCore_path (input : String) (t : List Char) (current : AgentState) :
    interpretCore input (pathSp ++ t) current = pathBranch (pathSp ++ t) current := by
  unfold interpretCore
  rw [if_neg (guard_ne_true ((pathSp ++ t).isEmpty) rfl),
      if_neg (notMem3 (pathSp ++ t) helpC commandsC manualC rfl rfl rfl),
      if_neg (notMem3 (pathSp ++ t) statusC reportC stateC rfl rfl rfl),
      if_neg (guard_ne_true (noteSp.isPrefixOf (pathSp ++ t)) rfl),
      if_neg (guard_ne_true (collectSp.isPrefixOf (pathSp ++ t)) rfl),
      if_neg (guard_ne_true (dropSp.isPrefixOf (pathSp ++ t)) rfl),
      if_neg (guard_ne_true (energySp.isPrefixOf (pathSp ++ t)) rfl),
      if_pos (isPrefixOf_append pathSp t)]

theorem interpretCore_collect (input : String) (t : List Char) (current : AgentState) :
    interpretCore input (collectSp ++ t) current = collectBranch input current := by
  unfold interpretCore
  rw [if_neg (guard_ne_true ((collectSp ++ t).isEmpty) rfl),
      if_neg (notMem3 (collectSp ++ t) helpC commandsC manualC rfl rfl rfl),
      if_neg (notMem3 (collectSp ++ t) statusC reportC stateC rfl rfl rfl),
      if_neg (guard_ne_true (noteSp.isPrefixOf (collectSp ++ t)) rfl),
      if_pos (isPrefixOf_append collectSp t)]

theorem interpretCore_drop (input : String) (t : List Char) (current : AgentState) :
    interpretCore input (dropSp ++ t) current = dropBranch input current := by
  unfold interpretCore
  rw [if_neg (guard_ne_true ((dropSp ++ t).isEmpty) rfl),
      if_neg (notMem3 (dropSp ++ t) helpC commandsC manualC rfl rfl rfl),
      if_neg (notMem3 (dropSp ++ t) statusC reportC stateC rfl rfl rfl),
      if_neg (guard_ne_true (noteSp.isPrefixOf (dropSp ++ t)) rfl),
      if_neg (guard_ne_true (collectSp.isPrefixOf (dropSp ++ t)) rfl),
      if_pos (isPrefixOf_append dropSp t)]

theorem interpretCore_turn (input : String) (t : List Char) (current : AgentState) :
    interpretCore input (turnSp ++ t) current = turnBranch (turnSp ++ t) current := by
  unfold interpretCore
  rw [if_neg (guard_ne_true ((turnSp ++ t).isEmpty) rfl),
      if_neg (notMem3 (turnSp ++ t) helpC commandsC manualC rfl rfl rfl),
      if_neg (notMem3 (turnSp ++ t) statusC reportC stateC rfl rfl rfl),
      if_neg (guard_ne_true (noteSp.isPrefixOf (turnSp ++ t)) rfl),
      if_neg (guard_ne_true (collectSp.isPrefixOf (turnSp ++ t)) rfl),
      if_neg (guard_ne_true (dropSp.isPrefixOf (turnSp ++ t)) rfl),
      if_neg (guard_ne_true (energySp.isPrefixOf (turnSp ++ t)) rfl),
      if_neg (guard_ne_true (pathSp.isPrefixOf (turnSp ++ t)) rfl),
      if_neg (notMem3 (turnSp ++ t) resetC rebootC initC rfl rfl rfl),
      if_neg (notMem3 (turnSp ++ t) restC recoverC rechargeC rfl rfl rfl),
      if_neg (notMem4 (turnSp ++ t) scanC scanAreaC scanPerimeterC analyzeC rfl rfl rfl rfl),
      if_pos (isPrefixOf_append turnSp t)]

theorem interpretCore_move (input : String) (normalized : List Char) (current : AgentState)
    (hpre : dispatchedBeforeMove normalized = false)
    (hmf : (movePat.isPrefixOf normalized || containsL normalized forwardPat) = true) :
    interpretCore input normalized current = moveBranch normalized current := by
  unfold dispatchedBeforeMove at hpre
  simp only [Bool.or_eq_false_iff] at hpre
  obtain ⟨⟨⟨⟨⟨⟨⟨⟨⟨⟨⟨h1, h2⟩, h3⟩, h4⟩, h5⟩, h6⟩, h7⟩, h8⟩, h9⟩, h10⟩, h11⟩, h12⟩ := hpre
  unfold interpretCore
  rw [if_neg (guard_ne_true _ h1), if_neg (of_decide_eq_false h2),
      if_neg (of_decide_eq_false h3), if_neg (guard_ne_true _ h4),
      if_neg (guard_ne_true _ h5), if_neg (guard_ne_true _ h6),
      if_neg (guard_ne_true _ h7), if_neg (guard_ne_true _ h8),
      if_neg (of_decide_eq_false h9), if_neg (of_decide_eq_false h10),
      if_neg (of_decide_eq_false h11), if_neg (guard_ne_true _ h12),
      if_pos hmf]

/-! ### Claim C7 -/

/-- C7: each of the exact inputs `reset`, `reboot`, `init` returns exactly the
baseline `AgentState` — position (3,3), heading north, energy 80, empty
inventory, the single seed note — discarding all accumulated notes and
inventory. -/
theorem reset_returns_base (current : AgentState) :
    interpretCommand "reset" current =
      { response := "Agent reset to baseline configuration.", nextState := baseState } ∧
      interpretCommand "reboot" current =
        { response := "Agent reset to baseline configuration.", nextState := baseState } ∧
      interpretCommand "init" current =
        { response := "Agent reset to baseline configuration.", nextState := baseState } ∧
      baseState = { x := 3, y := 3, heading := Heading.north, energy := 80, inventory := [], notes := ["Calibrated and ready."] } :=
  ⟨rfl, rfl, rfl, by decide⟩

/-! ### Claim C9 -/

/-- C9: `turn left` rotates one step counter-clockwise in the cycle
north→west→south→east→north deducting 2 energy, `turn right` rotates one step
clockwise deducting 2 energy, and `turn left` followed by `turn right`
restores the original heading. -/
theorem turn_left_right_inverse (current : AgentState) :
    (interpretCommand "turn left" current).nextState.heading =
      nextHeading current.heading TurnDir.left ∧
    (interpretCommand "turn left" current).nextState.energy =
      clampEnergy (current.energy - 2) ∧
    (interpretCommand "turn right" current).nextState.heading =
      nextHeading current.heading TurnDir.right ∧
    (interpretCommand "turn right" current).nextState.energy =
      clampEnergy (current.energy - 2) ∧
    (nextHeading Heading.north TurnDir.left = Heading.west ∧
      nextHeading Heading.west TurnDir.left = Heading.south ∧
      nextHeading Heading.south TurnDir.left = Heading.east ∧
      nextHeading Heading.east TurnDir.left = Heading.north) ∧
    (interpretCommand "turn right"
        (interpretCommand "turn left" current).nextState).nextState.heading =
      current.heading := by
  refine ⟨rfl, rfl, rfl, rfl, by decide, ?_⟩
  show nextHeading (nextHeading current.heading TurnDir.left) TurnDir.right = current.heading
  cases current.heading <;> decide

/-! ### Claims C5, C6, C8 -/

theorem dispatchedBeforeMove_of_moveHead (t : List Char) :
    dispatchedBeforeMove (movePat ++ t) = false := by rfl

/-- C5 (amended): for every input whose normalized form starts with `move`, or
contains `forward` while no earlier dispatch rule matches, and which contains a
cardinal direction word (checked in order north, south, east, west),
`interpretCommand` unconditionally forces the heading to that direction, moves
one clamped step in the new heading, and deducts 6 energy. -/
theorem move_directional_spec (input : String) (current : AgentState)
    (h : (movePat.isPrefixOf (normalizeInput input) ||
      (!dispatchedBeforeMove (normalizeInput input) &&
        containsL (normalizeInput input) forwardPat)) = true) :
    (containsL (normalizeInput input) northPat = true →
      interpretCommand input current =
        { response := "Advanced north to (" ++
            toString (moveForward { current with heading := Heading.north }).x ++ ", " ++
            toString (moveForward { current with heading := Heading.north }).y ++ ").",
          nextState := { current with
            x := (moveForward { current with heading := Heading.north }).x
            y := (moveForward { current with heading := Heading.north }).y
            heading := Heading.north
            energy := clampEnergy (current.energy - 6) } }) ∧
    (containsL (normalizeInput input) northPat = false →
      containsL (normalizeInput input) southPat = true →
      interpretCommand input current =
        { response := "Advanced south to (" ++
            toString (moveForward { current with heading := Heading.south }).x ++ ", " ++
            toString (moveForward { current with heading := Heading.south }).y ++ ").",
          nextState := { current with
            x := (moveForward { current with heading := Heading.south }).x
            y := (moveForward { current with heading := Heading.south }).y
            heading := Heading.south
            energy := clampEnergy (current.energy - 6) } }) ∧
    (containsL (normalizeInput input) northPat = false →
      containsL (normalizeInput input) southPat = false →
      containsL (normalizeInput input) eastPat = true →
      interpretCommand input current =
        { response := "Advanced east to (" ++
            toString (moveForward { current with heading := Heading.east }).x ++ ", " ++
            toString (moveForward { current with heading := Heading.east }).y ++ ").",
          nextState := { current with
            x := (moveForward { current with heading := Heading.east }).x
            y := (moveForward { current with heading := Heading.east }).y
            heading := Heading.east
            energy := clampEnergy (current.energy - 6) } }) ∧
    (containsL (normalizeInput input) northPat = false →
      containsL (normalizeInput input) southPat = false →
      containsL (normalizeInput input) eastPat = false →
      containsL (normalizeInput input) westPat = true →
      interpretCommand input current =
        { response := "Advanced west to (" ++
            toString (moveForward { current with heading := Heading.west }).x ++ ", " ++
            toString (moveForward { current with heading := Heading.west }).y ++ ").",
          nextState := { current with
            x := (moveForward { current with heading := Heading.west }).x
            y := (moveForward { current with heading := Heading.west }).y
            heading := Heading.west
            energy := clampEnergy (current.energy - 6) } }) := by
  have hkey : dispatchedBeforeMove (normalizeInput input) = false ∧
      (movePat.isPrefixOf (normalizeInput input) ||
        containsL (normalizeInput input) forwardPat) = true := by
    by_cases hm : movePat.isPrefixOf (normalizeInput input) = true
    · have hm' := hm
      rw [ List.isPrefixOf_iff_prefix] at hm'
      obtain ⟨t, ht⟩ := hm'
      constructor
      · rw [← ht]; exact dispatchedBeforeMove_of_moveHead t
      · rw [hm, Bool.true_or]
    · have hm' : movePat.isPrefixOf (normalizeInput input) = false := by
        cases hmb : movePat.isPrefixOf (normalizeInput input)
        · rfl
        · exact absurd hmb hm
      rw [hm', Bool.false_or, Bool.and_eq_true, Bool.not_eq_true'] at h
      exact ⟨h.1, by rw [h.2, Bool.or_true]⟩
  have hcore : interpretCommand input current =
      moveBranch (normalizeInput input) current := by
    unfold interpretCommand
    exact interpretCore_move input (normalizeInput input) current hkey.1 hkey.2
  refine ⟨?_, ?_, ?_, ?_⟩
  · intro hN
    rw [hcore]
    unfold moveBranch
    rw [if_pos hN]
  · intro hN hS
    rw [hcore]
    unfold moveBranch
    rw [if_neg (guard_ne_true _ hN), if_pos hS]
  · intro hN hS hE
    rw [hcore]
    unfold moveBranch
    rw [if_neg (guard_ne_true _ hN), if_neg (guard_ne_true _ hS), if_pos hE]
  · intro hN hS hE hW
    rw [hcore]
    unfold moveBranch
    rw [if_neg (guard_ne_true _ hN), if_neg (guard_ne_true _ hS),
        if_neg (guard_ne_true _ hE), if_pos hW]

/-- C5 scenario witness: from the baseline state, `move north` advances to
(3, 4) with energy 74. -/
theorem move_directional_spec_witness :
    interpretCommand "move north" baseState =
      { response := "Advanced north to (3, 4).",
        nextState := { x := 3, y := 4, heading := Heading.north, energy := 74, inventory := [], notes := ["Calibrated and ready."] } } := by
  have h := (move_directional_spec "move north" baseState (by decide)).1 (by decide)
  rw [h]
  decide

/-- C5 counterexample to the claim as stated: `turn forward south` contains
`forward` and `south`, yet the turn rule captures it first, so the heading is
not set to south and the state is unchanged. -/
theorem move_directional_cx :
    containsL (normalizeInput "turn forward south") forwardPat = true ∧
    containsL (normalizeInput "turn forward south") southPat = true ∧
    (interpretCommand "turn forward south" baseState).nextState.heading ≠ Heading.south ∧
    (interpretCommand "turn forward south" baseState).nextState = baseState := by decide

/-- C6: a plain move/forward command (no cardinal direction word contained)
that is blocked by the grid boundary returns the boundary response and leaves
the state unchanged with no energy deducted; an unblocked step is applied with
6 energy deducted. -/
theorem plain_forward_spec (input : String) (current : AgentState)
    (hpre : dispatchedBeforeMove (normalizeInput input) = false)
    (hmf : (movePat.isPrefixOf (normalizeInput input) ||
      containsL (normalizeInput input) forwardPat) = true)
    (hn : containsL (normalizeInput input) northPat = false)
    (hs : containsL (normalizeInput input) southPat = false)
    (he : containsL (normalizeInput input) eastPat = false)
    (hw : containsL (normalizeInput input) westPat = false) :
    ((moveForward current).x = current.x ∧ (moveForward current).y = current.y →
      interpretCommand input current =
        { response := "Boundary reached. Unable to move further forward.",
          nextState := current }) ∧
    (¬ ((moveForward current).x = current.x ∧ (moveForward current).y = current.y) →
      interpretCommand input current =
        { response := "Advanced forward to (" ++ toString (moveForward current).x ++ ", " ++
            toString (moveForward current).y ++ ").",
          nextState := { current with
            x := (moveForward current).x
            y := (moveForward current).y
            energy := clampEnergy (current.energy - 6) } }) := by
  have hcore : interpretCommand input current =
      moveBranch (normalizeInput input) current := by
    unfold interpretCommand
    exact interpretCore_move input (normalizeInput input) current hpre hmf
  constructor
  · intro hb
    rw [hcore]
    unfold moveBranch
    rw [if_neg (guard_ne_true _ hn), if_neg (guard_ne_true _ hs),
        if_neg (guard_ne_true _ he), if_neg (guard_ne_true _ hw)]
    dsimp only
    rw [if_pos hb]
  · intro hb
    rw [hcore]
    unfold moveBranch
    rw [if_neg (guard_ne_true _ hn), if_neg (guard_ne_true _ hs),
        if_neg (guard_ne_true _ he), if_neg (guard_ne_true _ hw)]
    dsimp only
    rw [if_neg hb]

/-- C6 scenario witness: at x = 0 heading west, `move forward` reports the
boundary and leaves the state (energy included) unchanged. -/
theorem plain_forward_spec_witness :
    interpretCommand "move forward" { baseState with x := 0, heading := Heading.west } =
      { response := "Boundary reached. Unable to move further forward.",
        nextState := { baseState with x := 0, heading := Heading.west } } := by
  have h := (plain_forward_spec "move forward" { baseState with x := 0, heading := Heading.west }
    (by decide) (by decide) (by decide) (by decide) (by decide) (by decide)).1 (by decide)
  rw [h]

/-- C8 (amended): a `turn ...` input containing `around` and containing
neither `left` nor `right` rotates the heading clockwise twice (equivalently
180°), deducts 3 energy, and the response reports the heading obtained after
both rotations. -/
theorem turn_around_spec (input : String) (current : AgentState)
    (h : turnSp.isPrefixOf (normalizeInput input) = true)
    (hl : containsL (normalizeInput input) leftPat = false)
    (hr : containsL (normalizeInput input) rightPat = false)
    (ha : containsL (normalizeInput input) aroundPat = true) :
    interpretCommand input current =
      { response := "Executed 180° pivot. Heading " ++
          headingUpper (nextHeading (nextHeading current.heading TurnDir.right) TurnDir.right) ++ ".",
        nextState := { current with
          heading := nextHeading (nextHeading current.heading TurnDir.right) TurnDir.right
          energy := clampEnergy (current.energy - 3) } } ∧
    (nextHeading (nextHeading Heading.north TurnDir.right) TurnDir.right = Heading.south ∧
      nextHeading (nextHeading Heading.south TurnDir.right) TurnDir.right = Heading.north ∧
      nextHeading (nextHeading Heading.east TurnDir.right) TurnDir.right = Heading.west ∧
      nextHeading (nextHeading Heading.west TurnDir.right) TurnDir.right = Heading.east) := by
  rw [ List.isPrefixOf_iff_prefix] at h
  obtain ⟨t, ht⟩ := h
  refine ⟨?_, by decide⟩
  unfold interpretCommand
  rw [← ht] at hl hr ha ⊢
  rw [interpretCore_turn]
  unfold turnBranch
  rw [if_neg (guard_ne_true _ hl), if_neg (guard_ne_true _ hr), if_pos ha]

/-- C8 scenario witness: from the baseline state (heading north),
`turn around` pivots to SOUTH and deducts 3 energy. -/
theorem turn_around_spec_witness :
    (interpretCommand "turn around" baseState).response =
      "Executed 180° pivot. Heading SOUTH." ∧
    (interpretCommand "turn around" baseState).nextState.energy = 77 ∧
    (interpretCommand "turn around" baseState).nextState.heading = Heading.south := by
  have h := (turn_around_spec "turn around" baseState (by decide) (by decide) (by decide)
    (by decide)).1
  rw [h]
  exact ⟨by decide, by decide, by decide⟩

/-- C8 counterexample to the claim as stated: `turn left around` is a
`turn ...` input containing `around`, yet the `left` check fires first, so the
heading is rotated once counter-clockwise and only 2 energy is deducted. -/
theorem turn_around_cx :
    turnSp.isPrefixOf (normalizeInput "turn left around") = true ∧
    containsL (normalizeInput "turn left around") aroundPat = true ∧
    (interpretCommand "turn left around" baseState).nextState.heading ≠
      nextHeading (nextHeading baseState.heading TurnDir.right) TurnDir.right ∧
    (interpretCommand "turn left around" baseState).nextState.energy ≠
      clampEnergy (baseState.energy - 3) := by decide

/-! ### Claim C3 -/

theorem pathBranch_spec (normalized : List Char) (current : AgentState)
    (coords : List (List Char))
    (hc : coords = splitCommaL (trimL (replaceFirstL pathPat normalized))) :
    (coords.length ≠ 2 →
      pathBranch normalized current =
        { response := "Use “path x,y” to teleport the agent within the grid.",
          nextState := current }) ∧
    (coords.length = 2 →
      ((jsParseIntL (trimL (coords.getD 0 [])) = none ∨
          jsParseIntL (trimL (coords.getD 1 [])) = none) →
        pathBranch normalized current = { response := outOfBoundsMsg, nextState := current }) ∧
      ∀ tx ty : Int, jsParseIntL (trimL (coords.getD 0 [])) = some tx →
        jsParseIntL (trimL (coords.getD 1 [])) = some ty →
        ((tx < 0 ∨ ty < 0 ∨ GRID_SIZE ≤ tx ∨ GRID_SIZE ≤ ty →
          pathBranch normalized current =
            { response := outOfBoundsMsg, nextState := current }) ∧
          (0 ≤ tx → tx < GRID_SIZE → 0 ≤ ty → ty < GRID_SIZE →
            pathBranch normalized current =
              { response := "Navigated directly to (" ++ toString tx ++ ", " ++
                  toString ty ++ ").",
                nextState := { current with
                  x := tx
                  y := ty
                  energy := clampEnergy (current.energy - 10) } }))) := by
  subst hc
  unfold pathBranch
  dsimp only
  by_cases hlen : (splitCommaL (trimL (replaceFirstL pathPat normalized))).length ≠ 2
  · rw [if_pos hlen]
    exact ⟨fun _ => rfl, fun h2 => absurd h2 hlen⟩
  · rw [if_neg hlen]
    push_neg at hlen
    refine ⟨fun hk => absurd hlen hk, fun _ => ?_⟩
    split
    · next targetX targetY heq0 heq1 =>
      constructor
      · intro hnone
        rcases hnone with hn | hn
        · rw [heq0] at hn; simp at hn
        · rw [heq1] at hn; simp at hn
      · intro tx ty h0 h1
        rw [heq0] at h0
        rw [heq1] at h1
        injection h0 with h0
        injection h1 with h1
        subst h0
        subst h1
        constructor
        · intro hoob
          rw [if_pos hoob]
        · intro b1 b2 b3 b4
          rw [if_neg (by push_neg; exact ⟨b1, b3, b2, b4⟩)]
    · next hne =>
      exact ⟨fun _ => rfl, fun tx ty h0 h1 => (hne tx ty h0 h1).elim⟩

/-- C3: for every state and every input whose normalized form starts with
`path `, if the remainder does not split into exactly two comma-separated
parts the response is the usage message and the state is unchanged; if either
part fails to parse as an integer, or either parsed coordinate lies outside
`[0, GRID_SIZE-1]`, the response is the out-of-bounds message and the state is
unchanged; otherwise the agent teleports to the parsed coordinates and 10
energy is deducted through the clamp. -/
theorem path_command_spec (input : String) (current : AgentState)
    (coords : List (List Char))
    (h : pathSp.isPrefixOf (normalizeInput input) = true)
    (hc : coords = splitCommaL (trimL (replaceFirstL pathPat (normalizeInput input)))) :
    (coords.length ≠ 2 →
      interpretCommand input current =
        { response := "Use “path x,y” to teleport the agent within the grid.",
          nextState := current }) ∧
    (coords.length = 2 →
      ((jsParseIntL (trimL (coords.getD 0 [])) = none ∨
          jsParseIntL (trimL (coords.getD 1 [])) = none) →
        interpretCommand input current =
          { response := outOfBoundsMsg, nextState := current }) ∧
      ∀ tx ty : Int, jsParseIntL (trimL (coords.getD 0 [])) = some tx →
        jsParseIntL (trimL (coords.getD 1 [])) = some ty →
        ((tx < 0 ∨ ty < 0 ∨ GRID_SIZE ≤ tx ∨ GRID_SIZE ≤ ty →
          interpretCommand input current =
            { response := outOfBoundsMsg, nextState := current }) ∧
          (0 ≤ tx → tx < GRID_SIZE → 0 ≤ ty → ty < GRID_SIZE →
            interpretCommand input current =
              { response := "Navigated directly to (" ++ toString tx ++ ", " ++
                  toString ty ++ ").",
                nextState := { current with
                  x := tx
                  y := ty
                  energy := clampEnergy (current.energy - 10) } }))) := by
  have h' := h
  rw [ List.isPrefixOf_iff_prefix] at h'
  obtain ⟨t, ht⟩ := h'
  have hcore : interpretCommand input current =
      pathBranch (normalizeInput input) current := by
    unfold interpretCommand
    rw [← ht, interpretCore_path]
  simpa only [← hcore] using
    pathBranch_spec (normalizeInput input) current coords hc

/-- C3 scenario witnesses: from the baseline state, `path 0,0` teleports to
(0, 0) with energy 70, while `path 9,9` is rejected as out of bounds with the
state unchanged. -/
theorem path_command_spec_witness :
    interpretCommand "path 0,0" baseState =
      { response := "Navigated directly to (0, 0).",
        nextState := { baseState with x := 0, y := 0, energy := 70 } } ∧
    interpretCommand "path 9,9" baseState =
      { response := outOfBoundsMsg, nextState := baseState } := by
  constructor
  · have h := (((path_command_spec "path 0,0" baseState _ (by decide) rfl).2
      (by decide)).2 0 0 (by decide) (by decide)).2 (by decide) (by decide) (by decide)
      (by decide)
    rw [h]
    decide
  · have h := (((path_command_spec "path 9,9" baseState _ (by decide) rfl).2
      (by decide)).2 9 9 (by decide) (by decide)).1 (by decide)
    rw [h]

/-! ### Trim and extraction lemmas -/

theorem dropWhile_head_false {p : Char → Bool} {l : List Char} {c : Char} {rest : List Char}
    (h : l.dropWhile p = c :: rest) : p c = false := by
  induction l with
  | nil => simp [List.dropWhile] at h
  | cons a t ih =>
    rw [List.dropWhile_cons] at h
    split at h
    · exact ih h
    · next hp =>
      injection h with h1 _
      subst h1
      rw [Bool.not_eq_true] at hp
      exact hp

theorem trim_fix_parts (l : List Char) (h : trimL l = l) :
    l.dropWhile Char.isWhitespace = l ∧
      l.reverse.dropWhile Char.isWhitespace = l.reverse := by
  unfold trimL at h
  have hlen1 : (l.dropWhile Char.isWhitespace).length ≤ l.length :=
    (List.dropWhile_suffix _).sublist.length_le
  have hlen2 : ((l.dropWhile Char.isWhitespace).reverse.dropWhile Char.isWhitespace).length ≤
      (l.dropWhile Char.isWhitespace).length := by
    have hsfx : (l.dropWhile Char.isWhitespace).reverse.dropWhile Char.isWhitespace <:+
        (l.dropWhile Char.isWhitespace).reverse := List.dropWhile_suffix Char.isWhitespace
    have := hsfx.sublist.length_le
    simpa using this
  have hlen3 : ((l.dropWhile Char.isWhitespace).reverse.dropWhile Char.isWhitespace).length =
      l.length := by
    conv_rhs => rw [← h]
    simp
  have hdl : l.dropWhile Char.isWhitespace = l :=
    (List.dropWhile_suffix _).sublist.eq_of_length (by omega)
  refine ⟨hdl, ?_⟩
  have hr : (l.reverse.dropWhile Char.isWhitespace) = l.reverse := by
    have hsfx2 : l.reverse.dropWhile Char.isWhitespace <:+ l.reverse :=
      List.dropWhile_suffix Char.isWhitespace
    have hsub := hsfx2.sublist
    refine hsub.eq_of_length ?_
    rw [← hdl] at hsub ⊢
    simp only [List.length_reverse]
    omega
  exact hr

theorem trim_space_cons (D : List Char) (h : trimL D = D) : trimL (' ' :: D) = D := by
  have hp := trim_fix_parts D h
  unfold trimL
  rw [List.dropWhile_cons_of_pos (by decide), hp.1, hp.2, List.reverse_reverse]

theorem dropWhile_append_self (P Q : List Char)
    (hP : P.dropWhile Char.isWhitespace = P) (hne : P ≠ []) :
    (P ++ Q).dropWhile Char.isWhitespace = P ++ Q := by
  cases P with
  | nil => exact absurd rfl hne
  | cons c t =>
    have hc : Char.isWhitespace c = false := dropWhile_head_false hP
    rw [List.cons_append, List.dropWhile_cons_of_neg (by simp [hc])]

theorem trim_of_sandwich (A D : List Char) (c : Char) (t : List Char)
    (hA : A = c :: t) (hc : Char.isWhitespace c = false)
    (hD : trimL D = D) (hDne : D ≠ []) : trimL (A ++ D) = A ++ D := by
  subst hA
  have hp := trim_fix_parts D hD
  unfold trimL
  rw [List.cons_append, List.dropWhile_cons_of_neg (by simp [hc]), ← List.cons_append,
    List.reverse_append,
    dropWhile_append_self D.reverse (c :: t).reverse hp.2 (by simp [hDne]),
    ← List.reverse_append, List.reverse_reverse]

theorem jsIndexOfL_of_prefix (s pat : List Char) (h : pat.isPrefixOf s = true) :
    jsIndexOfL s pat = 0 := by
  unfold jsIndexOfL
  cases s with
  | nil =>
    cases pat with
    | nil => rfl
    | cons a l => simp [List.isPrefixOf] at h
  | cons c rest =>
    unfold idxAux
    rw [if_pos h]
    rfl

theorem normalize_keyword_append (A : String) (item : String) (c : Char) (t : List Char)
    (hA : A.data = c :: t) (hc : Char.isWhitespace c = false)
    (htrim : trimL item.data = item.data) (hne : item.data ≠ []) :
    normalizeInput (A ++ item) = lowerL A.data ++ lowerL item.data := by
  unfold normalizeInput
  rw [String.data_append, trim_of_sandwich A.data item.data c t hA hc htrim hne]
  unfold lowerL
  exact List.map_append lowerChar A.data item.data

theorem collect_extract (item : String) (htrim : trimL item.data = item.data)
    (hne : item.data ≠ []) :
    trimL (jsSliceL ("collect " ++ item).data
      (jsIndexOfL (lowerL ("collect " ++ item).data) collectPat + 7)) = item.data := by
  rw [String.data_append]
  have hlow : lowerL ("collect ".data ++ item.data) =
      "collect ".data ++ lowerL item.data := by
    unfold lowerL
    rw [List.map_append, show List.map lowerChar "collect ".data = "collect ".data by decide]
  rw [hlow]
  have hidx : jsIndexOfL ("collect ".data ++ lowerL item.data) collectPat = 0 := by
    have hpre : collectPat.isPrefixOf ("collect ".data ++ lowerL item.data) = true := by
      have := isPrefixOf_append collectPat (' ' :: lowerL item.data)
      exact this
    exact jsIndexOfL_of_prefix _ collectPat hpre
  rw [hidx]
  have hslice : jsSliceL ("collect ".data ++ item.data) (0 + 7) = ' ' :: item.data := by
    rfl
  rw [hslice]
  exact trim_space_cons item.data htrim

theorem drop_extract (item : String) (htrim : trimL item.data = item.data)
    (hne : item.data ≠ []) :
    trimL (jsSliceL ("drop " ++ item).data
      (jsIndexOfL (lowerL ("drop " ++ item).data) dropPat + 4)) = item.data := by
  rw [String.data_append]
  have hlow : lowerL ("drop ".data ++ item.data) = "drop ".data ++ lowerL item.data := by
    unfold lowerL
    rw [List.map_append, show List.map lowerChar "drop ".data = "drop ".data by decide]
  rw [hlow]
  have hidx : jsIndexOfL ("drop ".data ++ lowerL item.data) dropPat = 0 := by
    have hpre : dropPat.isPrefixOf ("drop ".data ++ lowerL item.data) = true := by
      have := isPrefixOf_append dropPat (' ' :: lowerL item.data)
      exact this
    exact jsIndexOfL_of_prefix _ dropPat hpre
  rw [hidx]
  have hslice : jsSliceL ("drop ".data ++ item.data) (0 + 4) = ' ' :: item.data := by
    rfl
  rw [hslice]
  exact trim_space_cons item.data htrim

theorem collectBranch_eval (item : String) (st : AgentState)
    (htrim : trimL item.data = item.data) (hne : item.data ≠ []) :
    (item ∈ st.inventory →
      collectBranch ("collect " ++ item) st =
        { response := "Item \"" ++ item ++ "\" is already secured.", nextState := st }) ∧
    (item ∉ st.inventory →
      collectBranch ("collect " ++ item) st =
        { response := "Collected \"" ++ item ++ "\" and stored in inventory.",
          nextState := { st with inventory := st.inventory ++ [item] } }) := by
  unfold collectBranch
  dsimp only
  rw [collect_extract item htrim hne]
  rw [if_neg (by simpa using hne)]
  constructor
  · intro hmem
    rw [if_pos (show (String.mk item.data) ∈ st.inventory from hmem)]
  · intro hmem
    rw [if_neg (show ¬ (String.mk item.data) ∈ st.inventory from hmem)]

theorem dropBranch_eval (item : String) (st : AgentState)
    (htrim : trimL item.data = item.data) (hne : item.data ≠ []) :
    (item ∉ st.inventory →
      dropBranch ("drop " ++ item) st =
        { response := "Inventory does not contain \"" ++ item ++ "\".", nextState := st }) ∧
    (item ∈ st.inventory →
      dropBranch ("drop " ++ item) st =
        { response := "Released \"" ++ item ++ "\" from inventory.",
          nextState := { st with
            inventory := st.inventory.filter (fun entry => entry != item) } }) := by
  unfold dropBranch
  dsimp only
  rw [drop_extract item htrim hne]
  rw [if_neg (by simpa using hne)]
  constructor
  · intro hmem
    rw [if_pos (show (String.mk item.data) ∉ st.inventory from hmem)]
  · intro hmem
    rw [if_neg (show ¬ (String.mk item.data) ∉ st.inventory from not_not_intro hmem)]

/-! ### Claim C4 -/

/-- C4 (amended): for every state and every trimmed non-empty item name that is
not already held, `collect <item>` followed by `drop <item>` returns the
inventory to exactly its pre-collect contents; collecting an item already held
and dropping an item not held are explanatory no-op responses leaving the
state unchanged. -/
theorem collect_drop_roundtrip (st : AgentState) (item : String)
    (htrim : trimL item.data = item.data) (hne : item.data ≠ []) :
    (item ∉ st.inventory →
      ((interpretCommand ("drop " ++ item)
          (interpretCommand ("collect " ++ item) st).nextState).nextState).inventory =
        st.inventory) ∧
    (item ∈ st.inventory →
      interpretCommand ("collect " ++ item) st =
        { response := "Item \"" ++ item ++ "\" is already secured.", nextState := st }) ∧
    (item ∉ st.inventory →
      interpretCommand ("drop " ++ item) st =
        { response := "Inventory does not contain \"" ++ item ++ "\".",
          nextState := st }) := by
  have hnormc : normalizeInput ("collect " ++ item) = collectSp ++ lowerL item.data := by
    rw [normalize_keyword_append "collect " item 'c' "ollect ".data rfl (by decide) htrim hne,
      show lowerL "collect ".data = collectSp by decide]
  have hnormd : normalizeInput ("drop " ++ item) = dropSp ++ lowerL item.data := by
    rw [normalize_keyword_append "drop " item 'd' "rop ".data rfl (by decide) htrim hne,
      show lowerL "drop ".data = dropSp by decide]
  have hcollect : ∀ s : AgentState, interpretCommand ("collect " ++ item) s =
      collectBranch ("collect " ++ item) s := by
    intro s
    unfold interpretCommand
    rw [hnormc]
    exact interpretCore_collect ("collect " ++ item) (lowerL item.data) s
  have hdrop : ∀ s : AgentState, interpretCommand ("drop " ++ item) s =
      dropBranch ("drop " ++ item) s := by
    intro s
    unfold interpretCommand
    rw [hnormd]
    exact interpretCore_drop ("drop " ++ item) (lowerL item.data) s
  refine ⟨?_, ?_, ?_⟩
  · intro hmem
    rw [hcollect st, (collectBranch_eval item st htrim hne).2 hmem]
    dsimp only
    rw [hdrop _,
      (dropBranch_eval item { st with inventory := st.inventory ++ [item] } htrim hne).2
        (by simp)]
    dsimp only
    rw [List.filter_append]
    have h1 : st.inventory.filter (fun entry => entry != item) = st.inventory :=
      List.filter_eq_self.mpr (fun a ha => by
        simp only [bne_iff_ne, ne_eq, decide_eq_true_eq]
        intro heq
        exact hmem (heq ▸ ha))
    have h2 : ([item] : List String).filter (fun entry => entry != item) = [] := by simp
    rw [h1, h2, List.append_nil]
  · intro hmem
    rw [hcollect st]
    exact (collectBranch_eval item st htrim hne).1 hmem
  · intro hmem
    rw [hdrop st]
    exact (dropBranch_eval item st htrim hne).1 hmem

/-- C4 witness: with the baseline state and the item `sample`, collecting then
dropping restores the inventory, and dropping from the baseline (whose
inventory is empty) is the explanatory no-op. -/
theorem collect_drop_roundtrip_witness :
    ((interpretCommand ("drop " ++ "sample")
        (interpretCommand ("collect " ++ "sample") baseState).nextState).nextState).inventory =
      baseState.inventory ∧
    interpretCommand ("drop " ++ "sample") baseState =
      { response := "Inventory does not contain \"" ++ "sample" ++ "\".",
        nextState := baseState } := by
  have h := collect_drop_roundtrip baseState "sample" (by decide) (by decide)
  exact ⟨h.1 (by decide), h.2.2 (by decide)⟩

/-- C4 counterexample to the claim as stated: when the item is already held,
`collect` is a no-op but `drop` still removes it, so the round trip does not
restore the pre-collect inventory. -/
theorem collect_drop_roundtrip_cx :
    ((interpretCommand "drop sample"
        (interpretCommand "collect sample"
          { baseState with inventory := ["sample"] }).nextState).nextState).inventory ≠
      ({ baseState with inventory := ["sample"] } : AgentState).inventory := by decide

/-! ### Non-emptiness of the extracted argument (claim C10) -/

theorem lowerChar_ws (c : Char) (h : c.isWhitespace = true) : lowerChar c = c := by
  have h' : c = ' ' ∨ c = '\t' ∨ c = '\r' ∨ c = '\n' := by
    simpa [Char.isWhitespace, or_assoc] using h
  rcases h' with rfl | rfl | rfl | rfl <;> decide

theorem idxAux_append (p : Char) (pt u : List Char) (hu : (p :: pt).isPrefixOf u = true) :
    ∀ (w : List Char) (i : Nat), (∀ c ∈ w, (p == c) = false) →
      idxAux (p :: pt) (w ++ u) i = (i : Int) + w.length := by
  intro w
  induction w with
  | nil =>
    intro i _
    cases hu' : u with
    | nil =>
      rw [hu'] at hu
      simp [List.isPrefixOf] at hu
    | cons b bs =>
      rw [List.nil_append]
      unfold idxAux
      rw [if_pos (hu' ▸ hu)]
      simp
  | cons a w' ih =>
    intro i hw
    rw [List.cons_append]
    unfold idxAux
    rw [if_neg (by
      rw [List.isPrefixOf_cons₂, hw a (List.mem_cons_self a w')]
      simp)]
    rw [ih (i + 1) (fun c hc => hw c (List.mem_cons_of_mem a hc))]
    push_cast [List.length_cons]
    ring

theorem drop_append_len {α : Type} (w u : List α) (k : Nat) :
    (w ++ u).drop (w.length + k) = u.drop k := by
  induction w with
  | nil => simp
  | cons a w' ih =>
    rw [List.cons_append, List.length_cons, Nat.add_right_comm, List.drop_succ_cons]
    exact ih

theorem drop_append_le {α : Type} (t v : List α) : ∀ (k : Nat), k ≤ t.length →
    (t ++ v).drop k = t.drop k ++ v := by
  induction t with
  | nil =>
    intro k hk
    have : k = 0 := Nat.le_zero.mp (by simpa using hk)
    subst this
    simp
  | cons a t' ih =>
    intro k hk
    cases k with
    | zero => simp
    | succ k' =>
      rw [List.cons_append, List.drop_succ_cons, List.drop_succ_cons]
      exact ih k' (by simpa using hk)

theorem trimL_ne_nil_of_mem (X : List Char) (c : Char) (hc : c ∈ X)
    (hw : c.isWhitespace = false) : trimL X ≠ [] := by
  intro h0
  unfold trimL at h0
  rw [List.reverse_eq_nil_iff, List.dropWhile_eq_nil_iff] at h0
  have hX := List.takeWhile_append_dropWhile Char.isWhitespace X
  have hc' : c ∈ X.takeWhile Char.isWhitespace ∨ c ∈ X.dropWhile Char.isWhitespace := by
    rw [← List.mem_append, hX]
    exact hc
  rcases hc' with h | h
  · have := List.mem_takeWhile_imp h
    rw [hw] at this
    exact Bool.false_ne_true this
  · have := h0 c (by simpa using h)
    rw [hw] at this
    exact Bool.false_ne_true this

/-- Whenever the trimmed lower-cased input starts with a keyword followed by a
space, the argument text extracted from the original input (slice after the
first occurrence of the keyword in the lower-cased input, then trim) is
non-empty. -/
theorem extraction_ne_nil (s : List Char) (p : Char) (pt : List Char) (k : Int)
    (hp : p.isWhitespace = false) (hk : k = (((p :: pt).length : Nat) : Int))
    (h : ((p :: pt) ++ [' ']).isPrefixOf (lowerL (trimL s)) = true) :
    trimL (jsSliceL s (jsIndexOfL (lowerL s) (p :: pt) + k)) ≠ [] := by
  subst hk
  obtain ⟨rv, hrv⟩ : ∃ rv,
      (s.dropWhile Char.isWhitespace).reverse.dropWhile Char.isWhitespace = rv := ⟨_, rfl⟩
  have htrim : trimL s = rv.reverse := by
    unfold trimL
    rw [hrv]
  rw [ List.isPrefixOf_iff_prefix] at h
  obtain ⟨r, hr⟩ := h
  rw [htrim] at hr
  have hlenrv : (p :: pt).length + 1 ≤ rv.length := by
    have hlen := congrArg List.length hr
    simp only [lowerL, List.length_append, List.length_map, List.length_reverse,
      List.length_cons, List.length_nil] at hlen
    simp only [List.length_cons]
    omega
  obtain ⟨vt, hvt⟩ : ∃ vt,
      (s.dropWhile Char.isWhitespace).reverse.takeWhile Char.isWhitespace = vt := ⟨_, rfl⟩
  have hvtWS : ∀ c ∈ vt, c.isWhitespace = true := by
    intro c hc
    rw [← hvt] at hc
    exact List.mem_takeWhile_imp hc
  have hudecomp : s.dropWhile Char.isWhitespace = rv.reverse ++ vt.reverse := by
    have h1 : (s.dropWhile Char.isWhitespace).reverse = vt ++ rv := by
      rw [← hrv, ← hvt]
      exact (List.takeWhile_append_dropWhile Char.isWhitespace
        (s.dropWhile Char.isWhitespace).reverse).symm
    calc s.dropWhile Char.isWhitespace
        = (s.dropWhile Char.isWhitespace).reverse.reverse := by rw [List.reverse_reverse]
      _ = (vt ++ rv).reverse := by rw [h1]
      _ = rv.reverse ++ vt.reverse := by rw [List.reverse_append]
  have hlowt : lowerL rv.reverse = (p :: pt) ++ ([' '] ++ r) := by
    rw [← hr, List.append_assoc]
  have hpreU : (p :: pt).isPrefixOf (lowerL (s.dropWhile Char.isWhitespace)) = true := by
    rw [ List.isPrefixOf_iff_prefix, hudecomp]
    show (p :: pt) <+: lowerL (rv.reverse ++ vt.reverse)
    rw [show lowerL (rv.reverse ++ vt.reverse) = lowerL rv.reverse ++ lowerL vt.reverse from
      List.map_append lowerChar rv.reverse vt.reverse]
    rw [hlowt, List.append_assoc]
    exact List.prefix_append _ _
  have hsplit : lowerL s =
      lowerL (s.takeWhile Char.isWhitespace) ++ lowerL (s.dropWhile Char.isWhitespace) := by
    conv_lhs => rw [← List.takeWhile_append_dropWhile Char.isWhitespace s]
    exact List.map_append lowerChar _ _
  have hwchars : ∀ c ∈ lowerL (s.takeWhile Char.isWhitespace), (p == c) = false := by
    intro c hcmem
    obtain ⟨c', hc'mem, rfl⟩ := List.mem_map.mp hcmem
    have hws : c'.isWhitespace = true := List.mem_takeWhile_imp hc'mem
    rw [lowerChar_ws c' hws]
    cases hbe : p == c'
    · rfl
    · exfalso
      have hpc : p = c' := eq_of_beq hbe
      rw [hpc, hws] at hp
      exact Bool.noConfusion hp
  have hidx : jsIndexOfL (lowerL s) (p :: pt) =
      ((s.takeWhile Char.isWhitespace).length : Int) := by
    unfold jsIndexOfL
    rw [hsplit, idxAux_append p pt _ hpreU _ 0 hwchars]
    simp [lowerL]
  have hslice : jsSliceL s (jsIndexOfL (lowerL s) (p :: pt) + (((p :: pt).length : Nat) : Int)) =
      (s.dropWhile Char.isWhitespace).drop (p :: pt).length := by
    rw [hidx]
    unfold jsSliceL
    rw [if_neg (by omega)]
    rw [show (((s.takeWhile Char.isWhitespace).length : Int) +
        (((p :: pt).length : Nat) : Int)).toNat =
        (s.takeWhile Char.isWhitespace).length + (p :: pt).length by omega]
    obtain ⟨n, hn⟩ : ∃ n, (s.takeWhile Char.isWhitespace).length = n := ⟨_, rfl⟩
    rw [hn]
    conv_lhs => rw [← List.takeWhile_append_dropWhile Char.isWhitespace s]
    rw [← hn]
    exact drop_append_len _ _ _
  rw [hslice, hudecomp,
    drop_append_le rv.reverse vt.reverse (p :: pt).length (by
      rw [List.length_reverse]
      omega)]
  obtain ⟨c0, rv', hc0⟩ : ∃ c0 rv', rv = c0 :: rv' := by
    cases hcase : rv with
    | nil =>
      rw [hcase] at hlenrv
      simp at hlenrv
    | cons a b => exact ⟨a, b, rfl⟩
  have hc0ws : c0.isWhitespace = false := by
    have hdw : (s.dropWhile Char.isWhitespace).reverse.dropWhile Char.isWhitespace =
        c0 :: rv' := by
      rw [hrv, hc0]
    exact dropWhile_head_false hdw
  have hmem : c0 ∈ rv.reverse.drop (p :: pt).length := by
    rw [hc0, List.reverse_cons,
      drop_append_le rv'.reverse [c0] (p :: pt).length (by
        rw [List.length_reverse]
        rw [hc0] at hlenrv
        simp only [List.length_cons] at hlenrv ⊢
        omega)]
    exact List.mem_append_right _ (by simp)
  exact trimL_ne_nil_of_mem _ c0 (List.mem_append_left _ hmem) hc0ws

theorem respNeOfPre (r err : String) (pre : List Char)
    (hpre : pre <+: r.data) (h : ¬ pre <+: err.data) : r ≠ err := by
  intro he
  subst he
  exact h hpre

theorem resp_ne_errs (r : String) (pre : List Char) (hpre : pre <+: r.data)
    (h1 : ¬ pre <+: noteEmptyMsg.data) (h2 : ¬ pre <+: collectEmptyMsg.data)
    (h3 : ¬ pre <+: dropEmptyMsg.data) :
    r ≠ noteEmptyMsg ∧ r ≠ collectEmptyMsg ∧ r ≠ dropEmptyMsg :=
  ⟨respNeOfPre r _ pre hpre h1, respNeOfPre r _ pre hpre h2,
    respNeOfPre r _ pre hpre h3⟩

theorem concrete_ne_errs (r : String)
    (h1 : ¬ r.data <+: noteEmptyMsg.data) (h2 : ¬ r.data <+: collectEmptyMsg.data)
    (h3 : ¬ r.data <+: dropEmptyMsg.data) :
    r ≠ noteEmptyMsg ∧ r ≠ collectEmptyMsg ∧ r ≠ dropEmptyMsg :=
  resp_ne_errs r r.data (List.prefix_refl _) h1 h2 h3

/-! ### Claim C10 -/

/-- C10: because the input is trimmed before prefix matching, an input whose
normalized form starts with `note ` (resp. `collect `, `drop `) always yields
a non-empty extracted argument, so the three missing-argument prompt
responses are never produced, for any input and any state. -/
theorem missing_argument_unreachable (input : String) (current : AgentState) :
    (interpretCommand input current).response ≠ noteEmptyMsg ∧
    (interpretCommand input current).response ≠ collectEmptyMsg ∧
    (interpretCommand input current).response ≠ dropEmptyMsg := by
  unfold interpretCommand
  refine interpretCore_cases input (normalizeInput input) current
    (fun r => r.response ≠ noteEmptyMsg ∧ r.response ≠ collectEmptyMsg ∧
      r.response ≠ dropEmptyMsg)
    ?_ ?_ ?_ ?_ ?_ ?_ ?_ ?_ ?_ ?_ ?_ ?_ ?_ ?_
  · exact concrete_ne_errs
      "Awaiting directives. Try something like “move north” or “scan perimeter”."
      (by decide) (by decide) (by decide)
  · exact concrete_ne_errs
      "Available directives: move <north|south|east|west|forward>, turn <left|right|around>, scan, rest, status, reset, collect <item>, drop <item>, note <text>, energy <value>, path <x,y>. All commands are case-insensitive."
      (by decide) (by decide) (by decide)
  · refine resp_ne_errs (formatState current) ("Position (").data ?_
      (by decide) (by decide) (by decide)
    unfold formatState
    simp only [String.data_append, List.append_assoc]
    exact List.prefix_append _ _
  · intro hg
    unfold noteBranch
    dsimp only
    split
    · next hempty =>
      exfalso
      have hempty' : trimL (jsSliceL input.data
          (jsIndexOfL (lowerL input.data) notePat + 4)) = [] :=
        List.isEmpty_iff.mp hempty
      exact extraction_ne_nil input.data 'n' ['o', 't', 'e'] 4 (by decide) (by decide)
        hg hempty'
    · refine resp_ne_errs _ ("Noted: ").data ?_ (by decide) (by decide) (by decide)
      rw [String.data_append]
      exact List.prefix_append _ _
  · intro hg
    unfold collectBranch
    dsimp only
    split
    · next hempty =>
      exfalso
      have hempty' : trimL (jsSliceL input.data
          (jsIndexOfL (lowerL input.data) collectPat + 7)) = [] :=
        List.isEmpty_iff.mp hempty
      exact extraction_ne_nil input.data 'c' ['o', 'l', 'l', 'e', 'c', 't'] 7 (by decide)
        (by decide) hg hempty'
    · split
      · refine resp_ne_errs _ ("Item \"").data ?_ (by decide) (by decide) (by decide)
        simp only [String.data_append, List.append_assoc]
        exact List.prefix_append _ _
      · refine resp_ne_errs _ ("Collected \"").data ?_ (by decide) (by decide) (by decide)
        simp only [String.data_append, List.append_assoc]
        exact List.prefix_append _ _
  · intro hg
    unfold dropBranch
    dsimp only
    split
    · next hempty =>
      exfalso
      have hempty' : trimL (jsSliceL input.data
          (jsIndexOfL (lowerL input.data) dropPat + 4)) = [] :=
        List.isEmpty_iff.mp hempty
      exact extraction_ne_nil input.data 'd' ['r', 'o', 'p'] 4 (by decide) (by decide)
        hg hempty'
    · split
      · refine resp_ne_errs _ ("Inventory does not contain \"").data ?_
          (by decide) (by decide) (by decide)
        simp only [String.data_append, List.append_assoc]
        exact List.prefix_append _ _
      · refine resp_ne_errs _ ("Released \"").data ?_ (by decide) (by decide) (by decide)
        simp only [String.data_append, List.append_assoc]
        exact List.prefix_append _ _
  · unfold energyBranch
    split
    · exact concrete_ne_errs
        "Provide an energy value between 0 and 100 (e.g. “energy 65”)."
        (by decide) (by decide) (by decide)
    · refine resp_ne_errs _ ("Energy recalibrated to ").data ?_
        (by decide) (by decide) (by decide)
      simp only [String.data_append, List.append_assoc]
      exact List.prefix_append _ _
  · unfold pathBranch
    dsimp only
    split
    · exact concrete_ne_errs "Use “path x,y” to teleport the agent within the grid."
        (by decide) (by decide) (by decide)
    · split
      · split
        · exact concrete_ne_errs outOfBoundsMsg (by decide) (by decide) (by decide)
        · refine resp_ne_errs _ ("Navigated directly to (").data ?_
            (by decide) (by decide) (by decide)
          simp only [String.data_append, List.append_assoc]
          exact List.prefix_append _ _
      · exact concrete_ne_errs outOfBoundsMsg (by decide) (by decide) (by decide)
  · exact concrete_ne_errs "Agent reset to baseline configuration."
      (by decide) (by decide) (by decide)
  · refine resp_ne_errs _ ("Resting... Energy now at ").data ?_
      (by decide) (by decide) (by decide)
    simp only [String.data_append, List.append_assoc]
    exact List.prefix_append _ _
  · refine resp_ne_errs _ ("Scan complete. No threats detected. Notes: ").data ?_
      (by decide) (by decide) (by decide)
    rw [String.data_append]
    exact List.prefix_append _ _
  · unfold turnBranch
    split
    · refine resp_ne_errs _ ("Turned left. Heading ").data ?_
        (by decide) (by decide) (by decide)
      simp only [String.data_append, List.append_assoc]
      exact List.prefix_append _ _
    · split
      · refine resp_ne_errs _ ("Turned right. Heading ").data ?_
          (by decide) (by decide) (by decide)
        simp only [String.data_append, List.append_assoc]
        exact List.prefix_append _ _
      · split
        · refine resp_ne_errs _ ("Executed 180° pivot. Heading ").data ?_
            (by decide) (by decide) (by decide)
          simp only [String.data_append, List.append_assoc]
          exact List.prefix_append _ _
        · exact concrete_ne_errs "Specify turn direction: left, right, or around."
            (by decide) (by decide) (by decide)
  · unfold moveBranch
    dsimp only
    split
    · refine resp_ne_errs _ ("Advanced north to (").data ?_
        (by decide) (by decide) (by decide)
      simp only [String.data_append, List.append_assoc]
      exact List.prefix_append _ _
    · split
      · refine resp_ne_errs _ ("Advanced south to (").data ?_
          (by decide) (by decide) (by decide)
        simp only [String.data_append, List.append_assoc]
        exact List.prefix_append _ _
      · split
        · refine resp_ne_errs _ ("Advanced east to (").data ?_
            (by decide) (by decide) (by decide)
          simp only [String.data_append, List.append_assoc]
          exact List.prefix_append _ _
        · split
          · refine resp_ne_errs _ ("Advanced west to (").data ?_
              (by decide) (by decide) (by decide)
            simp only [String.data_append, List.append_assoc]
            exact List.prefix_append _ _
          · split
            · exact concrete_ne_errs "Boundary reached. Unable to move further forward."
                (by decide) (by decide) (by decide)
            · refine resp_ne_errs _ ("Advanced forward to (").data ?_
                (by decide) (by decide) (by decide)
              simp only [String.data_append, List.append_assoc]
              exact List.prefix_append _ _
  · exact concrete_ne_errs
      "Command not recognized. Request “help” to review supported directives or provide a more specific instruction."
      (by decide) (by decide) (by decide)
